import Mathlib

/-!
sshpass-win32: the prompt detector, the credential injector and the exit code of `main`.

A shallow embedding of `src/main.c`.  Bytes are natural numbers, C buffers are lists of
bytes, and the effects of the program (bytes handed to the child-input pipe, to `stdout`,
to `stderr`) are recorded in an explicit `World` that every function threads through.
The results of the operating-system calls are inputs: the reads of a handle are the list
of what the successive `ReadFile` calls return, the outcome of each provisioning call is a
field of `Env`.

Not embedded: `ParseArgs` (it rests on the `argparse` library; `ctx.args` is taken as it
leaves `ParseArgs`), `InputHandlerThread` (the keystroke relay, which shares no variable
with the prompt detector), the event signalling between the threads, and the release of
handles.  What `fprintf` is given counts as forwarded; the translation and buffering done
by the C runtime below `fprintf` are outside the embedding.
-/

namespace SshPass

/-- One `char` of a C buffer. -/
abbrev Byte := Nat

/-- The bytes of an ASCII string literal of the source. -/
def bytes (s : String) : List Byte := s.toList.map Char.toNat

/-- The C string stored at the start of `mem`: the bytes before the first NUL.  The end of
the list counts as a terminator as well. -/
def cstr (mem : List Byte) : List Byte := mem.takeWhile (fun b => b != 0)

/-- C `strlen`. -/
def strlen (s : List Byte) : Nat := (cstr s).length

/-- Search for the first occurrence of `needle` in the string `hay`, both already reduced
to their bytes; `i` is the offset of `hay` in the original string. -/
def strstrFrom (needle : List Byte) : List Byte → Nat → Option Nat
  | [], i => if needle.isPrefixOf [] then some i else none
  | b :: t, i => if needle.isPrefixOf (b :: t) then some i else strstrFrom needle t (i + 1)

/-- C `strstr`: the offset of the first occurrence of the string `needle` in the string
`haystack`, `none` for a NULL result.  An empty needle is found at offset 0. -/
def strstr (haystack needle : List Byte) : Option Nat :=
  strstrFrom (cstr needle) (cstr haystack) 0

/-! Data model (`Args`, `Context`, `State`) and the observable world -/

/-- The anonymous `enum` of `Args.pwtype`. -/
inductive PwType where
  | PWT_STDIN
  | PWT_FILE
  | PWT_FD
  | PWT_PASS
  deriving DecidableEq

/-- The structure `Args`.  The three members of the union `pwsrc` are kept as three fields;
only the one selected by `pwtype` is read.  Strings are the bytes their pointer points to
(a NUL terminator is implied at the end). -/
structure Args where
  pwtype : PwType
  filename : List Byte
  fd : Int
  password : List Byte
  passPrompt : List Byte
  verbose : Int
  cmd : List Byte
  deriving DecidableEq

/-- The structure `Context`.  Its handles (`pipeIn`, `pipeOut`, `stdOut`, `events`) are
opaque; what is done through them is recorded in `World`. -/
structure Context where
  args : Args
  deriving DecidableEq

/-- The `enum State` of the prompt detector. -/
inductive State where
  | INIT
  | VERIFY
  | EXEC
  | END
  deriving DecidableEq

/-- What the relay thread can observe and change outside its own variables.

* `pipeOut`: the bytes passed so far to `WriteFile(ctx->pipeOut, ...)` by `WritePass`
  (the child-input channel; results of `WriteFile` are ignored by the source);
* `stdout`, `stderr`: the bytes passed so far to `fprintf(stdout, ...)`, `fprintf(stderr, ...)`;
* `stdinReads`: what the coming `ReadFile` calls on the standard input handle return,
  one entry per call; when the list is used up a call returns zero bytes;
* `fdReads`: the same for the handle `(HANDLE) ctx->args.pwsrc.fd`;
* `file`: what `CreateFileA(ctx->args.pwsrc.filename, ...)` gives: `none` for
  `INVALID_HANDLE_VALUE`, otherwise the results of the `ReadFile` calls on the new handle;
* `writePassCalls`: how many times `WritePass` has been entered. -/
structure World where
  pipeOut : List Byte
  stdout : List Byte
  stderr : List Byte
  stdinReads : List (List Byte)
  fdReads : List (List Byte)
  file : Option (List (List Byte))
  writePassCalls : Nat
  deriving DecidableEq

/-- The call `WriteFile(ctx->pipeOut, buf, n, NULL, NULL)`: the first `n` bytes at `buf`
go to the child-input channel. -/
def WriteFile (w : World) (buf : List Byte) (n : Nat) : World :=
  { w with pipeOut := w.pipeOut ++ buf.take n }

/-- The call `fprintf(stdout, "%s", s)`. -/
def printStdout (w : World) (s : List Byte) : World :=
  { w with stdout := w.stdout ++ cstr s }

/-- The call `fprintf(stderr, fmt)` for a format without conversions. -/
def printStderr (w : World) (fmt : List Byte) : World :=
  { w with stderr := w.stderr ++ cstr fmt }

/-! The credential injector (`WritePassHandle`, `WritePass`) -/

/-- The inner `for` loop of `WritePassHandle` over the bytes one `ReadFile` delivered,
entered with `done = 0`: every byte before the first CR or LF is written on its own;
the result tells whether a CR or LF was met (`done = 1`). -/
def WritePassHandle.scan : List Byte → World → Bool × World
  | [], w => (false, w)
  | b :: rest, w =>
    if b == 13 || b == 10 then (true, w)
    else WritePassHandle.scan rest (WriteFile w [b] 1)

/-- The `while (!done)` loop of `WritePassHandle` over the results of the successive
`ReadFile(src, buffer, sizeof(buffer), &bytesRead, NULL)` calls.  Returns the world and
the reads left on the handle. -/
def WritePassHandle.loop : List (List Byte) → World → World × List (List Byte)
  | [], w => (w, [])
  | r :: rest, w =>
    if r.length < 1 then (w, rest)
    else
      match WritePassHandle.scan r w with
      | (true, w1) => (w1, rest)
      | (false, w1) => WritePassHandle.loop rest w1

/-- The function `WritePassHandle(ctx, src)`, `src` given by the reads it will deliver. -/
def WritePassHandle (src : List (List Byte)) (w : World) : World × List (List Byte) :=
  let (w1, rest) := WritePassHandle.loop src w
  (WriteFile w1 [10] 1, rest)

/-- The function `WritePass(ctx)`. -/
def WritePass (ctx : Context) (w0 : World) : World :=
  let w := { w0 with writePassCalls := w0.writePassCalls + 1 }
  match ctx.args.pwtype with
  | .PWT_STDIN =>
    let (w1, rest) := WritePassHandle w.stdinReads w
    { w1 with stdinReads := rest }
  | .PWT_FD =>
    let (w1, rest) := WritePassHandle w.fdReads w
    { w1 with fdReads := rest }
  | .PWT_FILE =>
    match w.file with
    | some reads => (WritePassHandle reads w).1
    | none => w
  | .PWT_PASS =>
    let w1 := WriteFile w ctx.args.password (strlen ctx.args.password)
    WriteFile w1 [10] 1

/-! The prompt detector (`IsWaitInputPass`, `ProcessOutput`) and the relay (`PipeListener`) -/

/-- The function `IsWaitInputPass(ctx, buffer, len)`; `len` is not used by the source. -/
def IsWaitInputPass (ctx : Context) (buffer : List Byte) (_len : Nat) : Bool :=
  match strstr buffer ctx.args.passPrompt with
  | none => false
  | some _ => true

/-- The function `ProcessOutput(ctx, buffer, len, state)`. -/
def ProcessOutput (ctx : Context) (buffer : List Byte) (len : Nat) (state : State)
    (w : World) : State × World :=
  match state with
  | .INIT =>
    if !IsWaitInputPass ctx buffer len then (.INIT, w)
    else (.VERIFY, WritePass ctx w)
  | .VERIFY =>
    if IsWaitInputPass ctx buffer len then
      (.END, printStderr w (bytes "Password is error!"))
    else (.EXEC, printStdout w buffer)
  | .EXEC => (.EXEC, printStdout w buffer)
  | .END => (.END, w)

/-- The constant `BUFFER_SIZE`. -/
def BUFFER_SIZE : Nat := 1024

/-- The buffer of `PipeListener` after `ReadFile` stored `chunk` at its start and
`buffer[bytesRead] = 0` was executed. -/
def fillBuffer (buffer chunk : List Byte) : List Byte :=
  (chunk ++ buffer.drop chunk.length).set chunk.length 0

/-- The `while (1)` loop of `PipeListener`.  `reads` holds the results of the successive
`ReadFile(ctx->pipeIn, buffer, BUFFER_SIZE, &bytesRead, NULL)` calls: `none` when the call
returns FALSE, `some chunk` when it returns TRUE with `chunk` stored; once the list is
used up the call fails (the pipe is closed).  Every iteration issues one `ReadFile` call
and so takes one entry of `reads`.  The result is the state and the world at the `break`,
and the reads that were never issued: what is still in the pipe when the loop is left. -/
def PipeListener.loop (ctx : Context) :
    List (Option (List Byte)) → List Byte → State → World →
      (State × World) × List (Option (List Byte))
  | [], _, state, w => ((state, w), [])
  | none :: rest, _, state, w => ((state, w), rest)
  | some chunk :: rest, buffer, state, w =>
    if chunk.length == 0 then ((state, w), rest)
    else
      let buffer1 := fillBuffer buffer chunk
      let r := ProcessOutput ctx buffer1 chunk.length state w
      if r.1 = State.END then (r, rest)
      else PipeListener.loop ctx rest buffer1 r.1 r.2

/-- The function `PipeListener`: the loop entered with a zeroed buffer of
`BUFFER_SIZE + 1` bytes and `state = INIT`.  The final state is returned for the
statements below; the source keeps it in a local variable and drops it. -/
def PipeListener (ctx : Context) (reads : List (Option (List Byte))) (w : World) :
    State × World :=
  (PipeListener.loop ctx reads (List.replicate (BUFFER_SIZE + 1) 0) .INIT w).1

/-- The reads `PipeListener` never issues: the part of `reads` that is left when its loop
is left. -/
def PipeListener.unread (ctx : Context) (reads : List (Option (List Byte))) (w : World) :
    List (Option (List Byte)) :=
  (PipeListener.loop ctx reads (List.replicate (BUFFER_SIZE + 1) 0) .INIT w).2

/-! The supervisor (`main`) -/

/-- The value `S_OK` of the Windows headers. -/
def S_OK : Int := 0

/-- The value `E_UNEXPECTED` of the Windows headers, `0x8000FFFF` as a signed 32-bit `HRESULT`. -/
def E_UNEXPECTED : Int := -2147418113

/-- The value `EXIT_SUCCESS` of `stdlib.h`. -/
def EXIT_SUCCESS : Int := 0

/-- The value `EXIT_FAILURE` of `stdlib.h`. -/
def EXIT_FAILURE : Int := 1

/-- A `DWORD` converted to the signed 32-bit `HRESULT`. -/
def toHRESULT (d : Nat) : Int :=
  if d % 2 ^ 32 < 2 ^ 31 then (d % 2 ^ 32 : Nat) else ((d % 2 ^ 32 : Nat) : Int) - 2 ^ 32

/-- The conversion `HRESULT_FROM_WIN32` of the Windows headers: a value that is not positive as an
`HRESULT` is kept, any other error code gets the severity bit and `FACILITY_WIN32`. -/
def HRESULT_FROM_WIN32 (x : Nat) : Int :=
  if toHRESULT x ≤ 0 then toHRESULT x
  else toHRESULT (x % 2 ^ 16 + 7 * 2 ^ 16 + 2 ^ 31)

/-- The results of the operating-system calls made by `main` and the functions it calls,
in the order of the source.

* `createEvent`: `CreateEvent` returned a handle that is not `NULL`;
* `createPipeOut`, `createPipeIn`: the two `CreatePipe` calls succeeded (the first sets
  `ctx->pipeOut`, the second `ctx->pipeIn`);
* `createPseudoConsole`: the `HRESULT` of `CreatePseudoConsole`;
* `mallocAttrList`: `malloc(attrListSize)` returned a pointer that is not `NULL`;
* `initAttrList`, `initAttrListError`: the second `InitializeProcThreadAttributeList`
  succeeded, and `GetLastError()` after it when it did not;
* `updateAttr`, `updateAttrError`: the same for `UpdateProcThreadAttribute`;
* `createProcess`, `createProcessError`: the same for `CreateProcessA`;
* `pipeReads`: the results of the `ReadFile` calls of the relay thread on `ctx->pipeIn`
  that complete while the process runs. -/
structure Env where
  createEvent : Bool
  createPipeOut : Bool
  createPipeIn : Bool
  createPseudoConsole : Int
  mallocAttrList : Bool
  initAttrList : Bool
  initAttrListError : Nat
  updateAttr : Bool
  updateAttrError : Nat
  createProcess : Bool
  createProcessError : Nat
  pipeReads : List (Option (List Byte))
  deriving DecidableEq

/-- The function `CreatePseudoConsoleAndPipes(hpcon, ctx)`.  The console size only feeds
`CreatePseudoConsole`, whose result is taken from `env`. -/
def CreatePseudoConsoleAndPipes (env : Env) : Int :=
  let hr := E_UNEXPECTED
  if env.createPipeOut && env.createPipeIn then env.createPseudoConsole
  else hr

/-- The function `InitializeStartupInfoAttachedToPseudoConsole(startupInfo, hpcon)`;
`startupInfoNull` tells whether `startupInfo == NULL`. -/
def InitializeStartupInfoAttachedToPseudoConsole (env : Env) (startupInfoNull : Bool) : Int :=
  let hr := E_UNEXPECTED
  if startupInfoNull then hr
  else if !env.mallocAttrList then hr
  else if !env.initAttrList then HRESULT_FROM_WIN32 env.initAttrListError
  else if env.updateAttr then S_OK
  else HRESULT_FROM_WIN32 env.updateAttrError

/-- What a run of `main` leaves behind: its return value, whether `CreateProcessA` was
called, whether it succeeded (the child was spawned), and the world after the relay
thread's work. -/
structure MainResult where
  exitCode : Int
  createProcessCalled : Bool
  childSpawned : Bool
  world : World
  deriving DecidableEq

/-- The function `main`, after `ParseArgs` has filled `ctx.args`.  The relay thread started
by `_beginthread(PipeListener, 0, &ctx)` is run on `env.pipeReads` at the point where it
is started; its final state stays inside the thread.  The input thread and the wait on the
two events do not take part in the value returned. -/
def main (ctx : Context) (env : Env) (w : World) : MainResult :=
  if !env.createEvent then ⟨EXIT_FAILURE, false, false, w⟩
  else
    let hr := CreatePseudoConsoleAndPipes env
    if S_OK = hr then
      let w1 := (PipeListener ctx env.pipeReads w).2
      if S_OK = InitializeStartupInfoAttachedToPseudoConsole env false then
        let hr1 := if env.createProcess then S_OK else toHRESULT env.createProcessError
        ⟨if S_OK = hr1 then EXIT_SUCCESS else EXIT_FAILURE, true, env.createProcess, w1⟩
      else
        ⟨if S_OK = hr then EXIT_SUCCESS else EXIT_FAILURE, false, false, w1⟩
    else
      ⟨if S_OK = hr then EXIT_SUCCESS else EXIT_FAILURE, false, false, w⟩

/-! Notions used in the statements -/

/-- The longest prefix of `content` without a carriage return (13) and without a line
feed (10). -/
def credentialLine (content : List Byte) : List Byte :=
  content.takeWhile (fun b => !(b == 13 || b == 10))

/-- The diagnostic of the source for a repeated prompt. -/
def authFailureMessage : List Byte := bytes "Password is error!"

/-- The prompt pattern of the session: the C string at `ctx->args.passPrompt`. -/
def promptPattern (ctx : Context) : List Byte := cstr ctx.args.passPrompt

/-! Sample inputs -/

/-- A session started as `sshpass -p hunter2 <cmd>`: literal password, default prompt. -/
def ctxLiteral : Context :=
  ⟨⟨.PWT_PASS, [], 0, bytes "hunter2", bytes "password:", 0, bytes "ssh host "⟩⟩

/-- A session started as `sshpass -f pw.txt <cmd>`: password file, default prompt. -/
def ctxFile : Context :=
  ⟨⟨.PWT_FILE, bytes "pw.txt", 0, [], bytes "password:", 0, bytes "ssh host "⟩⟩

/-- A world in which nothing has been written, no source has input and the password
file cannot be opened. -/
def emptyWorld : World := ⟨[], [], [], [], [], none, 0⟩

/-- The empty world with a password file that holds `hunter2\r\nextra`, read in one call. -/
def fileWorld : World := { emptyWorld with file := some [bytes "hunter2\r\nextra"] }

/-- The zeroed buffer `PipeListener` starts with. -/
def zeroBuffer : List Byte := List.replicate (BUFFER_SIZE + 1) 0

/-- An environment in which every provisioning call and the spawn succeed and the child's
output arrives as `reads`. -/
def envOk (reads : List (Option (List Byte))) : Env :=
  ⟨true, true, true, S_OK, true, true, 0, true, 0, true, 0, reads⟩

/-- An environment in which the channel pair and the pseudo console are created and
`UpdateProcThreadAttribute` fails with `ERROR_INVALID_PARAMETER` (87). -/
def envAttrFail : Env :=
  ⟨true, true, true, S_OK, true, true, 0, false, 87, true, 0, []⟩

/-! Lemmas on C strings -/

theorem cstr_initial (mem : List Byte) : cstr mem <+: mem :=
  List.takeWhile_prefix _

theorem cstr_append_zero (chunk rest : List Byte) : cstr (chunk ++ 0 :: rest) = cstr chunk := by
  induction chunk with
  | nil => simp [cstr]
  | cons b t ih =>
    unfold cstr at ih ⊢
    by_cases hb : b = 0
    · simp [List.takeWhile, hb]
    · simp [List.takeWhile, hb, ih]

theorem cstr_of_not_mem (mem : List Byte) (h : 0 ∉ mem) : cstr mem = mem := by
  unfold cstr
  rw [List.takeWhile_eq_self_iff]
  intro b hb
  have : b ≠ 0 := fun e => h (e ▸ hb)
  simpa using this

theorem strstrFrom_isSome (needle hay : List Byte) (i : Nat) :
    (strstrFrom needle hay i).isSome = true ↔ needle <:+: hay := by
  induction hay generalizing i with
  | nil =>
    unfold strstrFrom
    by_cases h : needle.isPrefixOf [] = true
    · simp only [h, if_true, Option.isSome_some, true_iff]
      exact (List.isPrefixOf_iff_prefix.mp h).isInfix
    · have h2 : needle.isPrefixOf [] = false := Bool.eq_false_iff.mpr h
      simp only [h2, Bool.false_eq_true, if_false, Option.isSome_none, false_iff]
      intro hi
      exact h (List.isPrefixOf_iff_prefix.mpr (List.infix_nil.mp hi ▸ List.prefix_refl _))
  | cons b t ih =>
    unfold strstrFrom
    by_cases h : needle.isPrefixOf (b :: t) = true
    · simp only [h, if_true, Option.isSome_some, true_iff]
      exact (List.isPrefixOf_iff_prefix.mp h).isInfix
    · have h2 : needle.isPrefixOf (b :: t) = false := Bool.eq_false_iff.mpr h
      simp only [h2, Bool.false_eq_true, if_false]
      rw [ih, List.infix_cons_iff]
      constructor
      · exact fun hi => Or.inr hi
      · rintro (hp | hi)
        · exact absurd (List.isPrefixOf_iff_prefix.mpr hp) h
        · exact hi

theorem IsWaitInputPass_iff (ctx : Context) (buffer : List Byte) (len : Nat) :
    IsWaitInputPass ctx buffer len = true ↔ cstr ctx.args.passPrompt <:+: cstr buffer := by
  rw [← strstrFrom_isSome _ _ 0]
  unfold IsWaitInputPass strstr
  cases strstrFrom (cstr ctx.args.passPrompt) (cstr buffer) 0 <;> simp

theorem IsWaitInputPass_congr (ctx : Context) (b1 b2 : List Byte) (l1 l2 : Nat)
    (h : cstr b1 = cstr b2) : IsWaitInputPass ctx b1 l1 = IsWaitInputPass ctx b2 l2 := by
  unfold IsWaitInputPass strstr
  rw [h]

theorem fillBuffer_eq (buffer chunk : List Byte) (h : chunk.length < buffer.length) :
    fillBuffer buffer chunk = chunk ++ 0 :: buffer.drop (chunk.length + 1) := by
  unfold fillBuffer
  rw [List.set_append_right _ _ (Nat.le_refl _), Nat.sub_self]
  congr 1
  rw [List.drop_eq_getElem_cons h]
  rfl

theorem cstr_fillBuffer (buffer chunk : List Byte) (h : chunk.length < buffer.length) :
    cstr (fillBuffer buffer chunk) = cstr chunk := by
  rw [fillBuffer_eq buffer chunk h, cstr_append_zero]

theorem length_fillBuffer (buffer chunk : List Byte) (h : chunk.length < buffer.length) :
    (fillBuffer buffer chunk).length = buffer.length := by
  rw [fillBuffer_eq buffer chunk h]
  simp
  omega

/-! Lemmas on the credential injector -/

theorem scan_spec (r : List Byte) (w : World) (rest : List Byte) :
    ((WritePassHandle.scan r w).1 = false ∧
      (WritePassHandle.scan r w).2 = { w with pipeOut := w.pipeOut ++ r } ∧
      credentialLine (r ++ rest) = r ++ credentialLine rest) ∨
    ((WritePassHandle.scan r w).1 = true ∧
      (WritePassHandle.scan r w).2 =
        { w with pipeOut := w.pipeOut ++ credentialLine (r ++ rest) }) := by
  induction r generalizing w with
  | nil => left; simp [WritePassHandle.scan]
  | cons b t ih =>
    unfold WritePassHandle.scan
    by_cases hb : (b == 13 || b == 10) = true
    · right
      simp [hb, credentialLine, List.takeWhile]
    · have hb2 : (b == 13 || b == 10) = false := Bool.eq_false_iff.mpr hb
      simp only [hb2, Bool.false_eq_true, if_false]
      have hcl : ∀ l, credentialLine (b :: l) = b :: credentialLine l := by
        intro l
        simp [credentialLine, List.takeWhile, hb2]
      rcases ih (WriteFile w [b] 1) with ⟨h1, h2, h3⟩ | ⟨h1, h2⟩
      · left
        refine ⟨h1, ?_, ?_⟩
        · rw [h2]; simp [WriteFile]
        · rw [List.cons_append, hcl, h3]; rfl
      · right
        refine ⟨h1, ?_⟩
        rw [h2, List.cons_append, hcl]; simp [WriteFile]

theorem loop_spec (reads : List (List Byte)) (w : World)
    (h : ∀ r ∈ reads, 0 < r.length) :
    (WritePassHandle.loop reads w).1 =
      { w with pipeOut := w.pipeOut ++ credentialLine reads.flatten } := by
  induction reads generalizing w with
  | nil => simp [WritePassHandle.loop, credentialLine]
  | cons r rest ih =>
    have hr : ¬ r.length < 1 := by
      have := h r (List.mem_cons_self _ _)
      omega
    have hrest : ∀ r ∈ rest, 0 < r.length := fun x hx => h x (List.mem_cons_of_mem _ hx)
    unfold WritePassHandle.loop
    simp only [hr, if_false, List.flatten_cons]
    rcases scan_spec r w rest.flatten with ⟨h1, h2, h3⟩ | ⟨h1, h2⟩
    · rcases hs : WritePassHandle.scan r w with ⟨d, w1⟩
      rw [hs] at h1 h2
      simp only at h1 h2
      subst h1
      simp only
      rw [ih _ hrest, h2, h3]
      simp
    · rcases hs : WritePassHandle.scan r w with ⟨d, w1⟩
      rw [hs] at h1 h2
      simp only at h1 h2
      subst h1
      simp only
      exact h2

theorem WritePassHandle_spec (reads : List (List Byte)) (w : World)
    (h : ∀ r ∈ reads, 0 < r.length) :
    (WritePassHandle reads w).1 =
      { w with pipeOut := w.pipeOut ++ credentialLine reads.flatten ++ [10] } := by
  unfold WritePassHandle
  have := loop_spec reads w h
  rcases hl : WritePassHandle.loop reads w with ⟨w1, rest⟩
  rw [hl] at this
  simp only at this
  simp only [this, WriteFile]
  simp

theorem scan_frame (r : List Byte) (w : World) :
    (WritePassHandle.scan r w).2.stdout = w.stdout ∧
    (WritePassHandle.scan r w).2.stderr = w.stderr ∧
    (WritePassHandle.scan r w).2.writePassCalls = w.writePassCalls := by
  induction r generalizing w with
  | nil => simp [WritePassHandle.scan]
  | cons b t ih =>
    unfold WritePassHandle.scan
    by_cases hb : (b == 13 || b == 10) = true
    · simp [hb]
    · have hb2 : (b == 13 || b == 10) = false := Bool.eq_false_iff.mpr hb
      simp only [hb2, Bool.false_eq_true, if_false]
      have := ih (WriteFile w [b] 1)
      simpa [WriteFile] using this

theorem loop_frame (reads : List (List Byte)) (w : World) :
    (WritePassHandle.loop reads w).1.stdout = w.stdout ∧
    (WritePassHandle.loop reads w).1.stderr = w.stderr ∧
    (WritePassHandle.loop reads w).1.writePassCalls = w.writePassCalls := by
  induction reads generalizing w with
  | nil => simp [WritePassHandle.loop]
  | cons r rest ih =>
    unfold WritePassHandle.loop
    by_cases hr : r.length < 1
    · simp [hr]
    · simp only [hr, if_false]
      have hs := scan_frame r w
      rcases hsc : WritePassHandle.scan r w with ⟨d, w1⟩
      rw [hsc] at hs
      cases d
      · simp only
        have := ih w1
        simp only at hs
        rw [this.1, this.2.1, this.2.2]
        exact hs
      · simpa using hs

theorem WritePassHandle_frame (reads : List (List Byte)) (w : World) :
    (WritePassHandle reads w).1.stdout = w.stdout ∧
    (WritePassHandle reads w).1.stderr = w.stderr ∧
    (WritePassHandle reads w).1.writePassCalls = w.writePassCalls := by
  unfold WritePassHandle
  have := loop_frame reads w
  rcases hl : WritePassHandle.loop reads w with ⟨w1, rest⟩
  rw [hl] at this
  simpa [WriteFile] using this

theorem WritePass_frame (ctx : Context) (w : World) :
    (WritePass ctx w).stdout = w.stdout ∧
    (WritePass ctx w).stderr = w.stderr ∧
    (WritePass ctx w).writePassCalls = w.writePassCalls + 1 := by
  unfold WritePass
  cases ctx.args.pwtype
  · simp only
    have := WritePassHandle_frame w.stdinReads { w with writePassCalls := w.writePassCalls + 1 }
    rcases hl : WritePassHandle w.stdinReads { w with writePassCalls := w.writePassCalls + 1 }
      with ⟨w1, rest⟩
    rw [hl] at this
    simpa using this
  · simp only
    cases hf : w.file with
    | none => simp
    | some reads =>
      simpa [hf] using WritePassHandle_frame reads { w with writePassCalls := w.writePassCalls + 1 }
  · simp only
    have := WritePassHandle_frame w.fdReads { w with writePassCalls := w.writePassCalls + 1 }
    rcases hl : WritePassHandle w.fdReads { w with writePassCalls := w.writePassCalls + 1 }
      with ⟨w1, rest⟩
    rw [hl] at this
    simpa using this
  · simp [WriteFile]

/-! Lemmas on the prompt detector and the relay loop -/

theorem ProcessOutput_congr (ctx : Context) (b1 b2 : List Byte) (l1 l2 : Nat) (state : State)
    (w : World) (h : cstr b1 = cstr b2) :
    ProcessOutput ctx b1 l1 state w = ProcessOutput ctx b2 l2 state w := by
  unfold ProcessOutput
  rw [IsWaitInputPass_congr ctx b1 b2 l1 l2 h]
  cases state <;> simp [printStdout, h]

theorem ProcessOutput_INIT_quiet (ctx : Context) (buffer : List Byte) (len : Nat)
    (w : World) (h : ¬ cstr ctx.args.passPrompt <:+: cstr buffer) :
    ProcessOutput ctx buffer len .INIT w = (.INIT, w) := by
  have hf : IsWaitInputPass ctx buffer len = false :=
    Bool.eq_false_iff.mpr (fun e => h ((IsWaitInputPass_iff ctx buffer len).mp e))
  simp [ProcessOutput, hf]

theorem ProcessOutput_INIT_prompt (ctx : Context) (buffer : List Byte) (len : Nat)
    (w : World) (h : cstr ctx.args.passPrompt <:+: cstr buffer) :
    ProcessOutput ctx buffer len .INIT w = (.VERIFY, WritePass ctx w) := by
  have ht : IsWaitInputPass ctx buffer len = true := (IsWaitInputPass_iff ctx buffer len).mpr h
  simp [ProcessOutput, ht]

theorem ProcessOutput_VERIFY_prompt (ctx : Context) (buffer : List Byte) (len : Nat)
    (w : World) (h : cstr ctx.args.passPrompt <:+: cstr buffer) :
    ProcessOutput ctx buffer len .VERIFY w = (.END, printStderr w authFailureMessage) := by
  have ht : IsWaitInputPass ctx buffer len = true := (IsWaitInputPass_iff ctx buffer len).mpr h
  simp [ProcessOutput, ht, authFailureMessage]

theorem ProcessOutput_VERIFY_quiet (ctx : Context) (buffer : List Byte) (len : Nat)
    (w : World) (h : ¬ cstr ctx.args.passPrompt <:+: cstr buffer) :
    ProcessOutput ctx buffer len .VERIFY w = (.EXEC, printStdout w buffer) := by
  have hf : IsWaitInputPass ctx buffer len = false :=
    Bool.eq_false_iff.mpr (fun e => h ((IsWaitInputPass_iff ctx buffer len).mp e))
  simp [ProcessOutput, hf]

theorem not_infix_cstr (pat chunk : List Byte) (h : ¬ pat <:+: chunk) : ¬ pat <:+: cstr chunk :=
  fun hi => h (hi.trans (cstr_initial chunk).isInfix)

theorem ProcessOutput_calls_of_ne_INIT (ctx : Context) (buffer : List Byte) (len : Nat)
    (state : State) (w : World) (h : state ≠ .INIT) :
    (ProcessOutput ctx buffer len state w).1 ≠ .INIT ∧
    (ProcessOutput ctx buffer len state w).2.writePassCalls = w.writePassCalls ∧
    (ProcessOutput ctx buffer len state w).2.pipeOut = w.pipeOut := by
  cases state with
  | INIT => exact absurd rfl h
  | VERIFY =>
    unfold ProcessOutput
    cases IsWaitInputPass ctx buffer len <;> simp [printStderr, printStdout]
  | EXEC => simp [ProcessOutput, printStdout]
  | END => simp [ProcessOutput]

theorem ProcessOutput_stderr (ctx : Context) (buffer : List Byte) (len : Nat)
    (state : State) (w : World) (h : state ≠ .END) :
    ((ProcessOutput ctx buffer len state w).1 = .END →
      (ProcessOutput ctx buffer len state w).2.stderr = w.stderr ++ authFailureMessage) ∧
    ((ProcessOutput ctx buffer len state w).1 ≠ .END →
      (ProcessOutput ctx buffer len state w).2.stderr = w.stderr) := by
  have hmsg : cstr (bytes "Password is error!") = authFailureMessage := by decide
  cases state with
  | END => exact absurd rfl h
  | INIT =>
    unfold ProcessOutput
    cases IsWaitInputPass ctx buffer len <;> simp [(WritePass_frame ctx w).2.1]
  | VERIFY =>
    unfold ProcessOutput
    cases IsWaitInputPass ctx buffer len <;> simp [printStderr, printStdout, hmsg]
  | EXEC => simp [ProcessOutput, printStdout]

theorem loop_cons (ctx : Context) (chunk : List Byte) (rest : List (Option (List Byte)))
    (buffer : List Byte) (state : State) (w : World)
    (hb : buffer.length = BUFFER_SIZE + 1) (h0 : 0 < chunk.length)
    (h1 : chunk.length ≤ BUFFER_SIZE) :
    (fillBuffer buffer chunk).length = BUFFER_SIZE + 1 ∧
    PipeListener.loop ctx (some chunk :: rest) buffer state w =
      if (ProcessOutput ctx chunk chunk.length state w).1 = State.END then
        (ProcessOutput ctx chunk chunk.length state w, rest)
      else PipeListener.loop ctx rest (fillBuffer buffer chunk)
        (ProcessOutput ctx chunk chunk.length state w).1
        (ProcessOutput ctx chunk chunk.length state w).2 := by
  have hlt : chunk.length < buffer.length := by omega
  refine ⟨by rw [length_fillBuffer buffer chunk hlt, hb], ?_⟩
  have hne : (chunk.length == 0) = false := by
    rw [beq_eq_false_iff_ne]; omega
  rw [PipeListener.loop]
  simp only [hne, Bool.false_eq_true, if_false]
  rw [ProcessOutput_congr ctx (fillBuffer buffer chunk) chunk chunk.length chunk.length state w
    (cstr_fillBuffer buffer chunk hlt)]

theorem loop_calls_of_ne_INIT (ctx : Context) (reads : List (Option (List Byte)))
    (buffer : List Byte) (state : State) (w : World) (h : state ≠ .INIT) :
    (PipeListener.loop ctx reads buffer state w).1.2.writePassCalls = w.writePassCalls ∧
    (PipeListener.loop ctx reads buffer state w).1.2.pipeOut = w.pipeOut := by
  induction reads generalizing buffer state w with
  | nil => simp [PipeListener.loop]
  | cons r rest ih =>
    cases r with
    | none => simp [PipeListener.loop]
    | some chunk =>
      rw [PipeListener.loop]
      by_cases h0 : (chunk.length == 0) = true
      · simp [h0]
      · have h0f : (chunk.length == 0) = false := Bool.eq_false_iff.mpr h0
        simp only [h0f, Bool.false_eq_true, if_false]
        have hp := ProcessOutput_calls_of_ne_INIT ctx (fillBuffer buffer chunk) chunk.length
          state w h
        by_cases he : (ProcessOutput ctx (fillBuffer buffer chunk) chunk.length state w).1
            = State.END
        · simp only [he, if_true]
          exact hp.2
        · simp only [he, if_false]
          have := ih (fillBuffer buffer chunk) _ (ProcessOutput ctx (fillBuffer buffer chunk)
            chunk.length state w).2 hp.1
          rw [this.1, this.2]
          exact hp.2

theorem loop_stderr (ctx : Context) (reads : List (Option (List Byte)))
    (buffer : List Byte) (state : State) (w : World) (h : state ≠ .END) :
    ((PipeListener.loop ctx reads buffer state w).1.1 = .END →
      (PipeListener.loop ctx reads buffer state w).1.2.stderr = w.stderr ++ authFailureMessage) ∧
    ((PipeListener.loop ctx reads buffer state w).1.1 ≠ .END →
      (PipeListener.loop ctx reads buffer state w).1.2.stderr = w.stderr) := by
  induction reads generalizing buffer state w with
  | nil => simp [PipeListener.loop, h]
  | cons r rest ih =>
    cases r with
    | none => simp [PipeListener.loop, h]
    | some chunk =>
      rw [PipeListener.loop]
      by_cases h0 : (chunk.length == 0) = true
      · simp [h0, h]
      · have h0f : (chunk.length == 0) = false := Bool.eq_false_iff.mpr h0
        simp only [h0f, Bool.false_eq_true, if_false]
        have hp := ProcessOutput_stderr ctx (fillBuffer buffer chunk) chunk.length state w h
        by_cases he : (ProcessOutput ctx (fillBuffer buffer chunk) chunk.length state w).1
            = State.END
        · simp only [he, if_true]
          exact ⟨fun _ => hp.1 he, fun hn => absurd rfl hn⟩
        · simp only [he, if_false]
          have := ih (fillBuffer buffer chunk) _ (ProcessOutput ctx (fillBuffer buffer chunk)
            chunk.length state w).2 he
          rw [hp.2 he] at this
          exact this

theorem loop_quiet (ctx : Context) (reads : List (Option (List Byte))) (buffer : List Byte)
    (w : World) (hb : buffer.length = BUFFER_SIZE + 1)
    (h : ∀ c, some c ∈ reads → c.length ≤ BUFFER_SIZE ∧ ¬ promptPattern ctx <:+: cstr c) :
    (PipeListener.loop ctx reads buffer .INIT w).1 = (.INIT, w) := by
  induction reads generalizing buffer with
  | nil => simp [PipeListener.loop]
  | cons r rest ih =>
    cases r with
    | none => simp [PipeListener.loop]
    | some chunk =>
      by_cases h0 : chunk.length = 0
      · rw [PipeListener.loop]
        simp [h0]
      · have hc := h chunk (List.mem_cons_self _ _)
        have hl := loop_cons ctx chunk rest buffer .INIT w hb (by omega) hc.1
        have hp := ProcessOutput_INIT_quiet ctx chunk chunk.length w hc.2
        rw [hl.2, hp]
        simp only [reduceCtorEq, if_false]
        exact ih _ hl.1 (fun c hcm => h c (List.mem_cons_of_mem _ hcm))

theorem loop_skip (ctx : Context) (pre : List (List Byte)) (rest : List (Option (List Byte)))
    (buffer : List Byte) (w : World) (hb : buffer.length = BUFFER_SIZE + 1)
    (h : ∀ c ∈ pre, 0 < c.length ∧ c.length ≤ BUFFER_SIZE ∧
      ¬ promptPattern ctx <:+: cstr c) :
    ∃ buffer1 : List Byte, buffer1.length = BUFFER_SIZE + 1 ∧
      PipeListener.loop ctx (pre.map some ++ rest) buffer .INIT w =
        PipeListener.loop ctx rest buffer1 .INIT w := by
  induction pre generalizing buffer with
  | nil => exact ⟨buffer, hb, rfl⟩
  | cons chunk t ih =>
    have hc := h chunk (List.mem_cons_self _ _)
    have hl := loop_cons ctx chunk (t.map some ++ rest) buffer .INIT w hb hc.1 hc.2.1
    have hp := ProcessOutput_INIT_quiet ctx chunk chunk.length w hc.2.2
    obtain ⟨buffer1, hb1, he⟩ := ih _ hl.1 (fun c hcm => h c (List.mem_cons_of_mem _ hcm))
    refine ⟨buffer1, hb1, ?_⟩
    rw [List.map_cons, List.cons_append, hl.2, hp]
    simp only [reduceCtorEq, if_false]
    exact he

theorem loop_calls_of_match (ctx : Context) (chunks : List (List Byte)) (buffer : List Byte)
    (w : World) (hb : buffer.length = BUFFER_SIZE + 1)
    (hs : ∀ c ∈ chunks, 0 < c.length ∧ c.length ≤ BUFFER_SIZE)
    (hm : ∃ c ∈ chunks, promptPattern ctx <:+: cstr c) :
    (PipeListener.loop ctx (chunks.map some) buffer .INIT w).1.2.writePassCalls
      = w.writePassCalls + 1 := by
  induction chunks generalizing buffer with
  | nil =>
    obtain ⟨c, hc, _⟩ := hm
    exact absurd hc (List.not_mem_nil c)
  | cons chunk t ih =>
    have hc := hs chunk (List.mem_cons_self _ _)
    have hl := loop_cons ctx chunk (t.map some) buffer .INIT w hb hc.1 hc.2
    rw [List.map_cons, hl.2]
    by_cases hmc : promptPattern ctx <:+: cstr chunk
    · rw [ProcessOutput_INIT_prompt ctx chunk chunk.length w hmc]
      simp only [reduceCtorEq, if_false]
      rw [(loop_calls_of_ne_INIT ctx (t.map some) _ .VERIFY (WritePass ctx w) (by decide)).1]
      exact (WritePass_frame ctx w).2.2
    · rw [ProcessOutput_INIT_quiet ctx chunk chunk.length w hmc]
      simp only [reduceCtorEq, if_false]
      apply ih _ hl.1 (fun c hcm => hs c (List.mem_cons_of_mem _ hcm))
      obtain ⟨c, hcm, hcc⟩ := hm
      rcases List.mem_cons.mp hcm with he | ht
      · exact absurd (he ▸ hcc) hmc
      · exact ⟨c, ht, hcc⟩

theorem loop_unread_of_ne_END (ctx : Context) (chunks : List (List Byte))
    (buffer : List Byte) (state : State) (w : World)
    (hb : buffer.length = BUFFER_SIZE + 1)
    (hs : ∀ c ∈ chunks, 0 < c.length ∧ c.length ≤ BUFFER_SIZE)
    (hne : (PipeListener.loop ctx (chunks.map some) buffer state w).1.1 ≠ .END) :
    (PipeListener.loop ctx (chunks.map some) buffer state w).2 = [] := by
  induction chunks generalizing buffer state w with
  | nil => simp [PipeListener.loop]
  | cons chunk t ih =>
    have hc := hs chunk (List.mem_cons_self _ _)
    have hl := loop_cons ctx chunk (t.map some) buffer state w hb hc.1 hc.2
    rw [List.map_cons, hl.2] at hne ⊢
    by_cases he : (ProcessOutput ctx chunk chunk.length state w).1 = State.END
    · simp only [he, if_true] at hne
      exact absurd rfl hne
    · simp only [he, if_false] at hne ⊢
      exact ih _ _ _ hl.1 (fun c hcm => hs c (List.mem_cons_of_mem _ hcm)) hne

theorem credentialLine_longest (content : List Byte) :
    credentialLine content <+: content ∧
    (∀ b ∈ credentialLine content, b ≠ 13 ∧ b ≠ 10) ∧
    (∀ p : List Byte, p <+: content → (∀ b ∈ p, b ≠ 13 ∧ b ≠ 10) →
      p <+: credentialLine content) := by
  refine ⟨List.takeWhile_prefix _, ?_, ?_⟩
  · intro b hb
    have := List.mem_takeWhile_imp hb
    simpa using this
  · induction content with
    | nil =>
      intro p hp _
      rw [List.prefix_nil.mp hp]
      exact List.nil_prefix
    | cons a t ih =>
      intro p hp hclean
      cases p with
      | nil => exact List.nil_prefix
      | cons x q =>
        obtain ⟨hx, hq⟩ := List.cons_prefix_cons.mp hp
        subst hx
        have hx := hclean x (List.mem_cons_self _ _)
        have hcl : credentialLine (x :: t) = x :: credentialLine t := by
          unfold credentialLine
          rw [List.takeWhile_cons_of_pos]
          simp [hx.1, hx.2]
        rw [hcl]
        exact List.cons_prefix_cons.mpr
          ⟨rfl, ih q hq (fun b hb => hclean b (List.mem_cons_of_mem _ hb))⟩

/-! Lemmas on `main` -/

/-- Whenever the channel pair and the pseudo console are created and
`InitializeStartupInfoAttachedToPseudoConsole` fails, `CreateProcessA` is not called and
`main` returns `EXIT_SUCCESS`: the result of the failed call is compared and dropped, and
`hr` still holds the `S_OK` of `CreatePseudoConsoleAndPipes`. -/
theorem main_drops_attribute_failure (ctx : Context) (env : Env) (w : World)
    (hev : env.createEvent = true)
    (hpc : CreatePseudoConsoleAndPipes env = S_OK)
    (hattr : InitializeStartupInfoAttachedToPseudoConsole env false ≠ S_OK) :
    (main ctx env w).createProcessCalled = false ∧
    (main ctx env w).childSpawned = false ∧
    (main ctx env w).exitCode = EXIT_SUCCESS := by
  have hattr2 : ¬ S_OK = InitializeStartupInfoAttachedToPseudoConsole env false :=
    fun e => hattr e.symm
  unfold main
  simp only [hev, hpc, hattr2]
  exact ⟨rfl, rfl, rfl⟩

/-- The two provisioning failures that `main` does report: when a `CreatePipe` call
or `CreatePseudoConsole` fails, `CreateProcessA` is not called and `main` returns
`EXIT_FAILURE` (1). -/
theorem main_reports_console_failure (ctx : Context) (env : Env) (w : World)
    (hev : env.createEvent = true)
    (hfail : (env.createPipeOut && env.createPipeIn) = false ∨
      env.createPseudoConsole ≠ S_OK) :
    main ctx env w = ⟨EXIT_FAILURE, false, false, w⟩ ∧ EXIT_FAILURE = 1 := by
  have hpc : ¬ S_OK = CreatePseudoConsoleAndPipes env := by
    unfold CreatePseudoConsoleAndPipes
    rcases hfail with hp | hc
    · simp only [hp, Bool.false_eq_true, if_false]
      decide
    · by_cases hp : (env.createPipeOut && env.createPipeIn) = true
      · simp only [hp, if_true]
        exact fun e => hc e.symm
      · have hp2 : (env.createPipeOut && env.createPipeIn) = false := Bool.eq_false_iff.mpr hp
        simp only [hp2, Bool.false_eq_true, if_false]
        decide
  refine ⟨?_, rfl⟩
  unfold main
  simp only [hev, hpc]
  rfl

/-! The claims -/

/-- C1, as the claim states it, fails: the single chunk NUL, `password:` contains the
prompt pattern as a substring, yet `WritePass` is not called. -/
theorem C1_counterexample :
    (0 :: bytes "password:").length = 10 ∧
    promptPattern ctxLiteral <:+: 0 :: bytes "password:" ∧
    (PipeListener ctxLiteral [some (0 :: bytes "password:")] emptyWorld).2.writePassCalls
      = 0 := by
  decide

/-- C1, amended: for every sequence of chunks (each of 1 to `BUFFER_SIZE` bytes) fed in
order to `PipeListener`, the number of calls to `WritePass` is exactly 1 if some chunk
contains the prompt pattern before its first zero byte, and 0 otherwise; and whenever
`ProcessOutput` calls `WritePass` its input state is `INIT`, so the credential is written
at most once per session. -/
theorem C1_writePass_once (ctx : Context) (chunks : List (List Byte)) (w : World)
    (hs : ∀ c ∈ chunks, 0 < c.length ∧ c.length ≤ BUFFER_SIZE) :
    ((∃ c ∈ chunks, promptPattern ctx <:+: cstr c) →
      (PipeListener ctx (chunks.map some) w).2.writePassCalls = w.writePassCalls + 1) ∧
    ((¬ ∃ c ∈ chunks, promptPattern ctx <:+: cstr c) →
      (PipeListener ctx (chunks.map some) w).2.writePassCalls = w.writePassCalls) ∧
    (∀ (buffer : List Byte) (len : Nat) (state : State) (w1 : World),
      (ProcessOutput ctx buffer len state w1).2.writePassCalls ≠ w1.writePassCalls →
        state = .INIT) := by
  have hb : (List.replicate (BUFFER_SIZE + 1) 0 : List Byte).length = BUFFER_SIZE + 1 :=
    List.length_replicate _ _
  refine ⟨fun hm => loop_calls_of_match ctx chunks _ w hb hs hm, fun hn => ?_, ?_⟩
  · unfold PipeListener
    rw [loop_quiet ctx (chunks.map some) _ w hb]
    intro c hc
    obtain ⟨c1, hc1, he⟩ := List.mem_map.mp hc
    cases he
    exact ⟨(hs c hc1).2, fun hi => hn ⟨c, hc1, hi⟩⟩
  · intro buffer len state w1 hne
    by_contra hst
    exact hne (ProcessOutput_calls_of_ne_INIT ctx buffer len state w1 hst).2.1

/-- C1 (amended) at the chunks `Enter `, `password:`, `welcome\n`. -/
theorem C1_writePass_once_witness :
    (PipeListener ctxLiteral
      ([bytes "Enter ", bytes "password:", bytes "welcome\n"].map some)
      emptyWorld).2.writePassCalls = emptyWorld.writePassCalls + 1 :=
  (C1_writePass_once ctxLiteral [bytes "Enter ", bytes "password:", bytes "welcome\n"]
    emptyWorld (by decide)).1 (by decide)

/-- C2: a chunk that does not contain the prompt pattern, handed to `ProcessOutput` in state
`INIT` the way `PipeListener` hands it over, gives `INIT` again and leaves the world as it
was: `WritePass` is not called and nothing is written to the child-input channel. -/
theorem C2_init_without_prompt (ctx : Context) (buffer chunk : List Byte) (w : World)
    (hb : buffer.length = BUFFER_SIZE + 1) (hc : chunk.length ≤ BUFFER_SIZE)
    (h : ¬ promptPattern ctx <:+: chunk) :
    ProcessOutput ctx (fillBuffer buffer chunk) chunk.length .INIT w = (.INIT, w) := by
  apply ProcessOutput_INIT_quiet
  rw [cstr_fillBuffer buffer chunk (by omega)]
  exact not_infix_cstr _ _ h

/-- C2 at the chunk `hello\n` with the default prompt. -/
theorem C2_init_without_prompt_witness :
    ProcessOutput ctxLiteral (fillBuffer zeroBuffer (bytes "hello\n")) (bytes "hello\n").length
      .INIT emptyWorld = (.INIT, emptyWorld) :=
  C2_init_without_prompt ctxLiteral zeroBuffer (bytes "hello\n") emptyWorld
    (List.length_replicate _ _) (by decide) (by decide)

/-- C3, as the claim states it, fails: in NUL `password:`, `password:`, `hi` the first
chunk that contains the prompt pattern is followed at once by another one, yet the relay
stops in `EXEC`, prints no diagnostic and forwards the later chunk `hi`. -/
theorem C3_counterexample :
    promptPattern ctxLiteral <:+: 0 :: bytes "password:" ∧
    promptPattern ctxLiteral <:+: bytes "password:" ∧
    PipeListener ctxLiteral
      [some (0 :: bytes "password:"), some (bytes "password:"), some (bytes "hi")] emptyWorld
      = (.EXEC, { emptyWorld with
          pipeOut := bytes "hunter2\n", stdout := bytes "hi", writePassCalls := 1 }) := by
  decide

/-- C3, amended: when the first chunk that contains the prompt pattern before its first
zero byte is followed at once by another such chunk, the relay reaches `END` on that second
chunk, the diagnostic is added to the error stream, the loop is left there without
processing any later chunk (every read after the second chunk is never issued and stays
unread), and nothing is forwarded to the real terminal. -/
theorem C3_prompt_twice_ends (ctx : Context) (pre : List (List Byte)) (c1 c2 : List Byte)
    (post : List (Option (List Byte))) (w : World)
    (hpre : ∀ c ∈ pre, 0 < c.length ∧ c.length ≤ BUFFER_SIZE ∧
      ¬ promptPattern ctx <:+: cstr c)
    (h1 : 0 < c1.length ∧ c1.length ≤ BUFFER_SIZE ∧ promptPattern ctx <:+: cstr c1)
    (h2 : 0 < c2.length ∧ c2.length ≤ BUFFER_SIZE ∧ promptPattern ctx <:+: cstr c2) :
    PipeListener ctx (pre.map some ++ some c1 :: some c2 :: post) w
      = (.END, printStderr (WritePass ctx w) authFailureMessage) ∧
    PipeListener.unread ctx (pre.map some ++ some c1 :: some c2 :: post) w = post ∧
    (printStderr (WritePass ctx w) authFailureMessage).stderr
      = w.stderr ++ authFailureMessage ∧
    (printStderr (WritePass ctx w) authFailureMessage).stdout = w.stdout := by
  have hb : (List.replicate (BUFFER_SIZE + 1) 0 : List Byte).length = BUFFER_SIZE + 1 :=
    List.length_replicate _ _
  have hmsg : cstr authFailureMessage = authFailureMessage := by decide
  have hloop : PipeListener.loop ctx (pre.map some ++ some c1 :: some c2 :: post)
      (List.replicate (BUFFER_SIZE + 1) 0) .INIT w
      = ((.END, printStderr (WritePass ctx w) authFailureMessage), post) := by
    obtain ⟨b1, hb1, he⟩ := loop_skip ctx pre (some c1 :: some c2 :: post) _ w hb hpre
    rw [he]
    have hl1 := loop_cons ctx c1 (some c2 :: post) b1 .INIT w hb1 h1.1 h1.2.1
    rw [hl1.2, ProcessOutput_INIT_prompt ctx c1 c1.length w h1.2.2]
    simp only [reduceCtorEq, if_false]
    have hl2 := loop_cons ctx c2 post (fillBuffer b1 c1) .VERIFY (WritePass ctx w) hl1.1
      h2.1 h2.2.1
    rw [hl2.2, ProcessOutput_VERIFY_prompt ctx c2 c2.length _ h2.2.2]
    simp
  refine ⟨?_, ?_, ?_, ?_⟩
  · unfold PipeListener
    rw [hloop]
  · unfold PipeListener.unread
    rw [hloop]
  · simp [printStderr, hmsg, (WritePass_frame ctx w).2.1]
  · simp [printStderr, (WritePass_frame ctx w).1]

/-- C3 (amended) at the chunks `login\n`, `password:`, `password:`, `late`: the relay stops
in `END` and the read that would deliver `late` is left unread. -/
theorem C3_prompt_twice_ends_witness :
    PipeListener ctxLiteral ([bytes "login\n"].map some ++
        some (bytes "password:") :: some (bytes "password:") :: [some (bytes "late")])
      emptyWorld
      = (.END, printStderr (WritePass ctxLiteral emptyWorld) authFailureMessage) ∧
    PipeListener.unread ctxLiteral ([bytes "login\n"].map some ++
        some (bytes "password:") :: some (bytes "password:") :: [some (bytes "late")])
      emptyWorld = [some (bytes "late")] :=
  ⟨(C3_prompt_twice_ends ctxLiteral [bytes "login\n"] (bytes "password:") (bytes "password:")
      [some (bytes "late")] emptyWorld (by decide) (by decide) (by decide)).1,
    (C3_prompt_twice_ends ctxLiteral [bytes "login\n"] (bytes "password:") (bytes "password:")
      [some (bytes "late")] emptyWorld (by decide) (by decide) (by decide)).2.1⟩

/-- C4, as the claim states it, fails: with the pseudo console allocated and the child
spawned, the prompt repeated at once drives the detector to `END`, and `main` returns 0. -/
theorem C4_counterexample :
    (PipeListener ctxLiteral [some (bytes "password:"), some (bytes "password:")]
      emptyWorld).1 = .END ∧
    (main ctxLiteral (envOk [some (bytes "password:"), some (bytes "password:")])
      emptyWorld).childSpawned = true ∧
    (main ctxLiteral (envOk [some (bytes "password:"), some (bytes "password:")])
      emptyWorld).exitCode = 0 := by
  decide

/-- C4, amended: when the pseudo console is allocated and the child is spawned, the value
returned by `main` is `EXIT_SUCCESS` (0) also when the prompt detector reaches `END`
through prompt repetition; the authentication failure shows only as the diagnostic added
to the error stream. -/
theorem C4_exit_code_ignores_detector (ctx : Context) (env : Env) (w : World)
    (hev : env.createEvent = true)
    (hpc : CreatePseudoConsoleAndPipes env = S_OK)
    (hattr : InitializeStartupInfoAttachedToPseudoConsole env false = S_OK)
    (hspawn : env.createProcess = true)
    (hend : (PipeListener ctx env.pipeReads w).1 = .END) :
    (main ctx env w).exitCode = EXIT_SUCCESS ∧
    EXIT_SUCCESS = 0 ∧
    (main ctx env w).childSpawned = true ∧
    (main ctx env w).world.stderr = w.stderr ++ authFailureMessage := by
  have hst := (loop_stderr ctx env.pipeReads (List.replicate (BUFFER_SIZE + 1) 0) .INIT w
    (by decide)).1 hend
  unfold main
  simp only [hev, hpc, hattr, hspawn]
  exact ⟨rfl, rfl, rfl, hst⟩

/-- C4 (amended) at the child output `password:`, `password:`. -/
theorem C4_exit_code_ignores_detector_witness :
    (main ctxLiteral (envOk [some (bytes "password:"), some (bytes "password:")])
      emptyWorld).exitCode = EXIT_SUCCESS :=
  (C4_exit_code_ignores_detector ctxLiteral
    (envOk [some (bytes "password:"), some (bytes "password:")]) emptyWorld
    rfl (by decide) (by decide) rfl (by decide)).1

/-- C5: when the password comes from the standard input, a descriptor or a file that
could be opened, and the source delivers its content in non-empty reads of at most 40
bytes, `WritePass` (through `WritePassHandle`, a total function) adds to the child-input
channel exactly the longest prefix of the content without CR and LF, then one line feed. -/
theorem C5_handle_strips_at_line_end (ctx : Context) (w : World) (reads : List (List Byte))
    (hreads : ∀ r ∈ reads, 0 < r.length ∧ r.length ≤ 40)
    (hsrc : (ctx.args.pwtype = .PWT_STDIN ∧ w.stdinReads = reads) ∨
      (ctx.args.pwtype = .PWT_FD ∧ w.fdReads = reads) ∨
      (ctx.args.pwtype = .PWT_FILE ∧ w.file = some reads)) :
    (WritePassHandle reads w).1.pipeOut = w.pipeOut ++ credentialLine reads.flatten ++ [10] ∧
    (WritePass ctx w).pipeOut = w.pipeOut ++ credentialLine reads.flatten ++ [10] ∧
    credentialLine reads.flatten <+: reads.flatten ∧
    (∀ b ∈ credentialLine reads.flatten, b ≠ 13 ∧ b ≠ 10) ∧
    (∀ p : List Byte, p <+: reads.flatten → (∀ b ∈ p, b ≠ 13 ∧ b ≠ 10) →
      p <+: credentialLine reads.flatten) := by
  have hpos : ∀ r ∈ reads, 0 < r.length := fun r hr => (hreads r hr).1
  refine ⟨by rw [WritePassHandle_spec reads w hpos], ?_, credentialLine_longest _⟩
  obtain ⟨po, so, se, si, fd, f, n⟩ := w
  unfold WritePass
  rcases hsrc with ⟨ht, hr⟩ | ⟨ht, hr⟩ | ⟨ht, hr⟩
  · simp only at hr
    subst hr
    rw [ht]
    have hspec := WritePassHandle_spec si ⟨po, so, se, si, fd, f, n + 1⟩ hpos
    rcases hl : WritePassHandle si ⟨po, so, se, si, fd, f, n + 1⟩ with ⟨w1, rest⟩
    rw [hl] at hspec
    simp only at hspec
    simp [hl, hspec]
  · simp only at hr
    subst hr
    rw [ht]
    have hspec := WritePassHandle_spec fd ⟨po, so, se, si, fd, f, n + 1⟩ hpos
    rcases hl : WritePassHandle fd ⟨po, so, se, si, fd, f, n + 1⟩ with ⟨w1, rest⟩
    rw [hl] at hspec
    simp only at hspec
    simp [hl, hspec]
  · simp only at hr
    subst hr
    rw [ht]
    have hspec := WritePassHandle_spec reads ⟨po, so, se, si, fd, some reads, n + 1⟩ hpos
    simp [hspec]

/-- C5 at the file content `hunter2\r\nextra`: the bytes written are `hunter2\n`. -/
theorem C5_handle_strips_at_line_end_witness :
    (WritePass ctxFile fileWorld).pipeOut = bytes "hunter2\n" :=
  (C5_handle_strips_at_line_end ctxFile fileWorld [bytes "hunter2\r\nextra"]
    (by decide) (Or.inr (Or.inr ⟨rfl, rfl⟩))).2.1

/-- C6: with a literal password (`PWT_PASS`) whose value is a C string, `WritePass` adds to
the child-input channel exactly the bytes of the value, CR and LF bytes included, then one
line feed; for the empty value it adds the line feed alone. -/
theorem C6_literal_verbatim (ctx : Context) (w : World)
    (ht : ctx.args.pwtype = .PWT_PASS) (hz : 0 ∉ ctx.args.password) :
    (WritePass ctx w).pipeOut = w.pipeOut ++ ctx.args.password ++ [10] ∧
    (ctx.args.password = [] → (WritePass ctx w).pipeOut = w.pipeOut ++ [10]) := by
  have h : (WritePass ctx w).pipeOut = w.pipeOut ++ ctx.args.password ++ [10] := by
    unfold WritePass
    rw [ht]
    simp only [WriteFile, strlen, cstr_of_not_mem _ hz, List.take_length]
    simp
  refine ⟨h, fun he => ?_⟩
  rw [h, he]
  simp

/-- C6 at a literal value with a CR and an LF inside. -/
theorem C6_literal_verbatim_witness :
    (WritePass ⟨{ ctxLiteral.args with password := bytes "a\r\nb" }⟩ emptyWorld).pipeOut
      = bytes "a\r\nb\n" :=
  (C6_literal_verbatim ⟨{ ctxLiteral.args with password := bytes "a\r\nb" }⟩ emptyWorld
    rfl (by decide)).1

/-- C7, as the claim states it, fails: the child prints `hello\n` and no prompt, the
session succeeds without an injection, but `hello\n` is not forwarded: nothing reaches
the real terminal. -/
theorem C7_counterexample :
    ¬ promptPattern ctxLiteral <:+: bytes "hello\n" ∧
    (main ctxLiteral (envOk [some (bytes "hello\n")]) emptyWorld).exitCode = 0 ∧
    (main ctxLiteral (envOk [some (bytes "hello\n")]) emptyWorld).world.stdout = [] ∧
    (main ctxLiteral (envOk [some (bytes "hello\n")]) emptyWorld).world.stdout
      ≠ emptyWorld.stdout ++ bytes "hello\n" := by
  decide

/-- C7, amended: in a session whose provisioning and spawn succeed and whose child output
never contains the prompt pattern in any chunk, `main` returns `EXIT_SUCCESS` (0) and
the relay leaves the world untouched: the credential is never injected, and none of the
child's output is forwarded to the real terminal, since the detector stays in `INIT`. -/
theorem C7_no_prompt_session (ctx : Context) (env : Env) (chunks : List (List Byte))
    (w : World)
    (hev : env.createEvent = true)
    (hpc : CreatePseudoConsoleAndPipes env = S_OK)
    (hattr : InitializeStartupInfoAttachedToPseudoConsole env false = S_OK)
    (hspawn : env.createProcess = true)
    (hout : env.pipeReads = chunks.map some)
    (hreads : ∀ c ∈ chunks, c.length ≤ BUFFER_SIZE ∧ ¬ promptPattern ctx <:+: c) :
    main ctx env w = ⟨EXIT_SUCCESS, true, true, w⟩ ∧
    EXIT_SUCCESS = 0 ∧
    PipeListener ctx env.pipeReads w = (.INIT, w) := by
  have hq : PipeListener ctx env.pipeReads w = (.INIT, w) := by
    unfold PipeListener
    refine loop_quiet ctx env.pipeReads _ w (List.length_replicate _ _) (fun c hc => ?_)
    rw [hout] at hc
    obtain ⟨c1, hc1, he⟩ := List.mem_map.mp hc
    cases he
    exact ⟨(hreads c hc1).1, not_infix_cstr _ _ (hreads c hc1).2⟩
  refine ⟨?_, rfl, hq⟩
  unfold main
  simp only [hev, hpc, hattr, hspawn, hq]
  rfl

/-- C7 (amended) at the child output `hello\n`. -/
theorem C7_no_prompt_session_witness :
    main ctxLiteral (envOk [some (bytes "hello\n")]) emptyWorld
      = ⟨EXIT_SUCCESS, true, true, emptyWorld⟩ :=
  (C7_no_prompt_session ctxLiteral (envOk [some (bytes "hello\n")]) [bytes "hello\n"]
    emptyWorld rfl (by decide) (by decide) rfl rfl (by decide)).1

/-- C8, as the claim states it, fails: with a password file that cannot be opened
`WritePass` writes nothing at all, so the bytes injected are not the single line feed. -/
theorem C8_counterexample :
    ctxFile.args.pwtype = .PWT_FILE ∧ emptyWorld.file = none ∧
    (WritePass ctxFile emptyWorld).pipeOut = [] ∧
    (WritePass ctxFile emptyWorld).pipeOut ≠ emptyWorld.pipeOut ++ [10] := by
  decide

/-- C8, amended: with a password file that cannot be opened `WritePass` writes no byte to
the child-input channel (no credential byte and no line feed); it only counts as a call.
The failure is not fatal: on a chunk with the prompt the detector still goes from `INIT`
to `VERIFY`. -/
theorem C8_unopenable_file_writes_nothing (ctx : Context) (w : World)
    (ht : ctx.args.pwtype = .PWT_FILE) (hf : w.file = none) :
    WritePass ctx w = { w with writePassCalls := w.writePassCalls + 1 } ∧
    (WritePass ctx w).pipeOut = w.pipeOut ∧
    (∀ (buffer : List Byte) (len : Nat), promptPattern ctx <:+: cstr buffer →
      ProcessOutput ctx buffer len .INIT w =
        (.VERIFY, { w with writePassCalls := w.writePassCalls + 1 })) := by
  have h : WritePass ctx w = { w with writePassCalls := w.writePassCalls + 1 } := by
    unfold WritePass
    rw [ht]
    simp only [hf]
  refine ⟨h, by rw [h], fun buffer len hm => ?_⟩
  rw [ProcessOutput_INIT_prompt ctx buffer len w hm, h]

/-- C8 (amended) at the session `sshpass -f pw.txt` with the file missing. -/
theorem C8_unopenable_file_writes_nothing_witness :
    (WritePass ctxFile emptyWorld).pipeOut = emptyWorld.pipeOut :=
  (C8_unopenable_file_writes_nothing ctxFile emptyWorld rfl rfl).2.1

/-- C9, where the code departs from the claim: with the channel pair and the pseudo console
created and `UpdateProcThreadAttribute` failing with error 87, the attachment-attribute
setup fails and `CreateProcessA` is not called, as claimed, but `main` returns 0
(`EXIT_SUCCESS`) where the claim says a non-zero exit code. -/
theorem C9_attribute_failure_exit_code :
    CreatePseudoConsoleAndPipes envAttrFail = S_OK ∧
    InitializeStartupInfoAttachedToPseudoConsole envAttrFail false = -2147024809 ∧
    InitializeStartupInfoAttachedToPseudoConsole envAttrFail false ≠ S_OK ∧
    (main ctxLiteral envAttrFail emptyWorld).createProcessCalled = false ∧
    (main ctxLiteral envAttrFail emptyWorld).exitCode = 0 := by
  decide

/-- C10, as the claim states it, fails: the chunk `h`, NUL, `i` in state `EXEC` forwards
the single byte `h`, not the three bytes of the chunk. -/
theorem C10_counterexample :
    ([104, 0, 105] : List Byte).length ≤ BUFFER_SIZE ∧
    ProcessOutput ctxLiteral (fillBuffer zeroBuffer [104, 0, 105]) 3 .EXEC emptyWorld
      = (.EXEC, { emptyWorld with stdout := [104] }) ∧
    (ProcessOutput ctxLiteral (fillBuffer zeroBuffer [104, 0, 105]) 3 .EXEC emptyWorld).2.stdout
      ≠ emptyWorld.stdout ++ [104, 0, 105] := by
  decide

/-- C10, amended: for a chunk of 1 to `BUFFER_SIZE` bytes, `ProcessOutput` in state `EXEC`
returns `EXEC` and forwards the bytes of the chunk that stand before its first zero byte;
in state `VERIFY`, on a chunk that does not contain the prompt pattern, it returns `EXEC`
and forwards the same bytes.  These are all bytes of the chunk when it has no zero byte. -/
theorem C10_forward_text (ctx : Context) (buffer chunk : List Byte) (w : World)
    (hb : buffer.length = BUFFER_SIZE + 1) (_h0 : 0 < chunk.length)
    (hc : chunk.length ≤ BUFFER_SIZE) :
    ProcessOutput ctx (fillBuffer buffer chunk) chunk.length .EXEC w
      = (.EXEC, { w with stdout := w.stdout ++ cstr chunk }) ∧
    (¬ promptPattern ctx <:+: chunk →
      ProcessOutput ctx (fillBuffer buffer chunk) chunk.length .VERIFY w
        = (.EXEC, { w with stdout := w.stdout ++ cstr chunk })) ∧
    cstr chunk <+: chunk ∧
    (0 ∉ chunk → cstr chunk = chunk) := by
  have hcs := cstr_fillBuffer buffer chunk (by omega)
  refine ⟨?_, fun h => ?_, cstr_initial chunk, cstr_of_not_mem chunk⟩
  · simp [ProcessOutput, printStdout, hcs]
  · have hn : ¬ cstr ctx.args.passPrompt <:+: cstr (fillBuffer buffer chunk) := by
      rw [hcs]
      exact not_infix_cstr _ _ h
    rw [ProcessOutput_VERIFY_quiet ctx _ _ w hn]
    simp [printStdout, hcs]

/-- C10 (amended) at the chunk `h`, NUL, `i`. -/
theorem C10_forward_text_witness :
    ProcessOutput ctxLiteral (fillBuffer zeroBuffer [104, 0, 105]) 3 .EXEC emptyWorld
      = (.EXEC, { emptyWorld with stdout := emptyWorld.stdout ++ cstr [104, 0, 105] }) :=
  (C10_forward_text ctxLiteral zeroBuffer [104, 0, 105] emptyWorld
    (List.length_replicate _ _) (by decide) (by decide)).1

end SshPass
